import Mathlib

/-! # NcursesWriter (SDL variant): colour bucketing, bar geometry and pixel packing

A shallow embedding of `src/Writer/NcursesWriter.cpp`:

* `to_color_pair`  – maps a magnitude onto one entry of the palette;
* `write`          – the rectangle and the 32-bit colour handed to `SDL_FillRect`;
* `clear`          – the fill issued when the frame is cleared.

Machine integers are mathematical integers that are reduced after every
operation: `wrap32` is the two's-complement reading of a 32-bit `int`,
`to_uint32` the conversion to `uint32_t`, `to_uint8` the conversion to
`uint8_t`.  A computation that the hardware cannot complete (division by zero,
a read outside the vector, a floating-point value that does not fit the
integer it is stored in) yields `none`; a sequence of such computations is
chained with `Option.bind`.
-/

namespace vis

/-! ## Machine arithmetic -/

/-- Two's-complement reading of `x` in a signed integer type that is `bits` wide. -/
def wrapSigned (bits : Nat) (x : Int) : Int :=
  let m : Int := 2 ^ bits
  let r := x % m
  if 2 * r < m then r else r - m

/-- Result of an `int` (32-bit) operation whose exact value is `x`. -/
def wrap32 (x : Int) : Int := wrapSigned 32 x

/-- Conversion to `uint32_t`. -/
def to_uint32 (x : Int) : Int := x % 2 ^ 32

/-- Conversion to `uint8_t`. -/
def to_uint8 (x : Int) : Int := x % 2 ^ 8

/-- Conversion to `size_t` (64 bits wide). -/
def to_size_t (x : Int) : Int := x % 2 ^ 64

/-- The `/` of two `int`s: truncation toward zero.  The quotient does not exist
when the divisor is zero or when `INT_MIN` is divided by `-1`. -/
def int_div (a b : Int) : Option Int :=
  if b = 0 then none
  else if a = -(2 ^ 31) ∧ b = -1 then none
  else some (Int.tdiv a b)

/-- The `%` of two `int`s: remainder with the sign of the dividend, defined
exactly when the quotient is. -/
def int_mod (a b : Int) : Option Int :=
  if b = 0 then none
  else if a = -(2 ^ 31) ∧ b = -1 then none
  else some (Int.tmod a b)

/-- The `<<` of an `int` by `k` positions, kept to 32 bits. -/
def int_shl (x : Int) (k : Nat) : Int := wrap32 (x * 2 ^ k)

/-! ## Data model -/

/-- A colour of the palette: `ColorDefinition{color_index, red, green, blue}`.
The integer types `ColorIndex` and `ColorValue` of the four fields are declared
in `Domain/ColorDefinition.h`; the fields are kept as integers here. -/
structure ColorDefinition where
  color_index : Int
  red : Int
  green : Int
  blue : Int
deriving DecidableEq

/-- The `SDL_Rect` passed to `SDL_FillRect`; its four fields are `int`s. -/
structure SDL_Rect where
  x : Int
  y : Int
  w : Int
  h : Int
deriving DecidableEq

/-- One call `SDL_FillRect(screen, rect, color)`; `rect = none` is the null
pointer, which makes SDL fill the whole surface. -/
structure FillRectCall where
  rect : Option SDL_Rect
  color : Int
deriving DecidableEq

/-! ## `to_color_pair` -/

/-- The read `colors[i]` of a `std::vector` at a `size_t` position. -/
def vector_at (colors : List ColorDefinition) (i : Int) : Option ColorDefinition :=
  colors.get? i.toNat

/-- The expression `(number * colors_size) / (max + 1)` on `int`s. -/
def bucket_index (number max colors_size : Int) : Option Int :=
  int_div (wrap32 (number * colors_size)) (wrap32 (max + 1))

/-- The expression `wrap ? index % colors_size : std::min(index, colors_size - 1)`. -/
def wrap_or_clamp (index colors_size : Int) (wrap : Bool) : Option Int :=
  if wrap then int_mod index colors_size
  else some (min index (wrap32 (colors_size - 1)))

/-- The function `vis::NcursesWriter::to_color_pair`.

`idxBits` is the width of the signed integer type `vis::ColorIndex`, whose
declaration is not in this translation unit; `colors.size()` is cast to it and
the result is promoted to `int` in the arithmetic that follows. -/
def to_color_pair (idxBits : Nat) (number max : Int) (colors : List ColorDefinition)
    (wrap : Bool) : Option ColorDefinition :=
  let colors_size := wrapSigned idxBits colors.length
  (bucket_index number max colors_size).bind fun index =>
    if colors_size = 0 then some ⟨0, 0, 0, 0⟩
    else
      (wrap_or_clamp index colors_size wrap).bind fun pos =>
        vector_at colors (to_size_t pos)

/-- The value that `to_color_pair` casts to `size_t` and uses as the position of
the palette read (no position is computed for an empty palette). -/
def palette_position (idxBits : Nat) (number max : Int) (colors : List ColorDefinition)
    (wrap : Bool) : Option Int :=
  let colors_size := wrapSigned idxBits colors.length
  (bucket_index number max colors_size).bind fun index =>
    if colors_size = 0 then none
    else wrap_or_clamp index colors_size wrap

/-! ## `write` and `clear` -/

/-- The quotient `SCREEN / terminal` of the `uint32_t` surface dimension by the
`int` terminal dimension, stored in an `int`: the divisor is converted to
`uint32_t`, the division is unsigned and the quotient is converted to `int`. -/
def scale_factor (screen terminal : Int) : Option Int :=
  if to_uint32 terminal = 0 then none
  else some (wrap32 (to_uint32 screen / to_uint32 terminal))

/-- Storing the `double` product `(double)factor * coordinate` in an `int` field
of the rectangle, for a coordinate whose `double` value is the integer
`coordinate`; `v` is the exact product.  A product of two integers below `2^53`
in magnitude is exact in `double`, and a larger one rounds to a value that is
still outside the `int` range, so the stored value is `v` when `v` fits an
`int` and does not exist otherwise. -/
def double_to_int (v : Int) : Option Int :=
  if -(2 ^ 31) ≤ v ∧ v < 2 ^ 31 then some v else none

/-- The value `a << 24 | r << 16 | g << 8 | b` that `write` stores in the
`uint32_t color_argb`; the four operands are `uint8_t`, promoted to `int`. -/
def color_argb (color : ColorDefinition) : Int :=
  let a := to_uint8 0xff
  let r := to_uint8 color.red
  let g := to_uint8 color.green
  let b := to_uint8 color.blue
  to_uint32 (Int.lor (Int.lor (Int.lor (int_shl a 24) (int_shl r 16)) (int_shl g 8)) b)

/-- The `SDL_Rect` that `vis::NcursesWriter::write` fills.

`SCREEN_WIDTH`, `SCREEN_HEIGHT` are the two `uint32_t` globals,
`terminal_width`, `terminal_height` the results of
`NcursesUtils::get_window_width/height`, `row` and `column` the integer values
of the two `double` arguments and `msg_size` is `msg.size()`. -/
def write_rect (SCREEN_WIDTH SCREEN_HEIGHT terminal_width terminal_height : Int)
    (row column : Int) (msg_size : Nat) : Option SDL_Rect :=
  let terminal_bar_width_in_chars := wrap32 msg_size
  (scale_factor SCREEN_HEIGHT terminal_height).bind fun vertical_scale_factor =>
  (scale_factor SCREEN_WIDTH terminal_width).bind fun horizontal_scale_factor =>
  (double_to_int (horizontal_scale_factor * column)).bind fun x =>
  (double_to_int (vertical_scale_factor * row)).bind fun y =>
    some ⟨x, y,
      wrap32 (horizontal_scale_factor * terminal_bar_width_in_chars),
      wrap32 (vertical_scale_factor + 1)⟩

/-- The function `vis::NcursesWriter::write`, as the call
`SDL_FillRect(screen, &rect, color_argb)` it ends with. -/
def write (SCREEN_WIDTH SCREEN_HEIGHT terminal_width terminal_height : Int)
    (row column : Int) (color : ColorDefinition) (msg_size : Nat) : Option FillRectCall :=
  (write_rect SCREEN_WIDTH SCREEN_HEIGHT terminal_width terminal_height
      row column msg_size).bind fun rect =>
    some ⟨some rect, color_argb color⟩

/-- The function `vis::NcursesWriter::clear`, as the `SDL_FillRect` call it makes:
`SDL_FillRect(screen, nullptr, 0x000000)`. -/
def clear : FillRectCall := ⟨none, 0x000000⟩

/-! ## The specification's words -/

/-- The bucket of the specification: `floor(value * paletteSize / (max + 1))`. -/
def spec_bucket (value max paletteSize : Nat) : Nat :=
  value * paletteSize / (max + 1)

/-- The final position of the specification: `index mod paletteSize` when
wrapping, `min(index, paletteSize - 1)` otherwise. -/
def spec_position (value max paletteSize : Nat) (wrap : Bool) : Nat :=
  if wrap then spec_bucket value max paletteSize % paletteSize
  else min (spec_bucket value max paletteSize) (paletteSize - 1)

/-- The packing of the specification:
`(alpha << 24) | (red << 16) | (green << 8) | blue`. -/
def spec_argb32 (alpha red green blue : Nat) : Nat :=
  (alpha <<< 24) ||| (red <<< 16) ||| (green <<< 8) ||| blue


/-! ## Example palettes -/

/-- Red, the first entry of the two-colour example palette. -/
def red : ColorDefinition := ⟨0, 255, 0, 0⟩

/-- Blue, the second entry of the two-colour example palette. -/
def blue : ColorDefinition := ⟨1, 0, 0, 255⟩

/-- The two-entry palette of the end-to-end scenario: red at index 0, blue at index 1. -/
def palette2 : List ColorDefinition := [red, blue]

/-- A three-entry palette. -/
def palette3 : List ColorDefinition := [⟨0, 255, 0, 0⟩, ⟨1, 0, 255, 0⟩, ⟨2, 0, 0, 255⟩]

/-- A four-entry palette. -/
def palette4 : List ColorDefinition :=
  [⟨0, 0, 0, 255⟩, ⟨1, 0, 255, 0⟩, ⟨2, 255, 255, 0⟩, ⟨3, 255, 0, 0⟩]

/-- A palette of 65536 entries: its size read as a 16-bit `ColorIndex` is `0`. -/
def palette65536 : List ColorDefinition := List.replicate 65536 red

/-- A palette of 40000 entries: its size read as a 16-bit `ColorIndex` is `-25536`. -/
def palette40000 : List ColorDefinition := List.replicate 40000 red

/-! ## Arithmetic lemmas -/

theorem wrapSigned_of_nonneg {bits : Nat} {x : Int} (h0 : 0 ≤ x) (h : 2 * x < 2 ^ bits) :
    wrapSigned bits x = x := by
  have hm : (0 : Int) < 2 ^ bits := by positivity
  have hx : x % 2 ^ bits = x := Int.emod_eq_of_lt h0 (by omega)
  simp only [wrapSigned, hx, h, if_true]

theorem wrap32_of_range {x : Int} (h0 : -(2 ^ 31) ≤ x) (h : x < 2 ^ 31) : wrap32 x = x := by
  simp only [wrap32, wrapSigned]
  norm_num at h0 h ⊢
  split_ifs <;> omega

theorem wrap32_two_pow : wrap32 (2 ^ 31) = -(2 ^ 31) := by decide

theorem to_size_t_of_nonneg {x : Int} (h0 : 0 ≤ x) (h : x < 2 ^ 64) : to_size_t x = x := by
  simp only [to_size_t]
  exact Int.emod_eq_of_lt h0 h

/-- Without overflow the `int` expression `(number * colors_size) / (max + 1)`
is the bucket of the specification. -/
theorem bucket_index_eq (value max n : Nat) (hmax : max < 2 ^ 31) (hprod : value * n < 2 ^ 31) :
    bucket_index value max n = some ((spec_bucket value max n : Nat) : Int) := by
  have hp : wrap32 ((value : Int) * (n : Int)) = ((value * n : Nat) : Int) := by
    rw [← Nat.cast_mul]
    apply wrap32_of_range <;> norm_num <;> omega
  simp only [bucket_index, hp, spec_bucket]
  by_cases hm : max + 1 < 2 ^ 31
  · have hw : wrap32 ((max : Int) + 1) = ((max + 1 : Nat) : Int) := by
      push_cast
      apply wrap32_of_range <;> norm_num <;> omega
    rw [hw]
    have h1 : ¬ (((max + 1 : Nat) : Int) = 0) := by omega
    have h2 : ¬ ((((value * n : Nat) : Int) = -(2 ^ 31)) ∧ (((max + 1 : Nat) : Int) = -1)) := by
      omega
    simp only [int_div, h1, h2, if_false]
    rw [← Int.ofNat_tdiv]
  · have hmx : max + 1 = 2 ^ 31 := by omega
    have hw : wrap32 ((max : Int) + 1) = -(2 ^ 31) := by
      have : (max : Int) + 1 = 2 ^ 31 := by exact_mod_cast hmx
      rw [this]; exact wrap32_two_pow
    rw [hw, hmx]
    have h1 : ¬ ((-(2 ^ 31) : Int) = 0) := by norm_num
    have h2 : ¬ ((((value * n : Nat) : Int) = -(2 ^ 31)) ∧ ((-(2 ^ 31) : Int) = -1)) := by
      norm_num
    simp only [int_div, h1, h2, if_false]
    rw [Nat.div_eq_of_lt hprod, Int.tdiv_neg]
    have : Int.tdiv ((value * n : Nat) : Int) (2 ^ 31) = 0 := by
      have h3 : ((2 : Int) ^ 31) = ((2 ^ 31 : Nat) : Int) := by norm_num
      rw [h3, ← Int.ofNat_tdiv, Nat.div_eq_of_lt hprod]
      rfl
    rw [this]; rfl

theorem spec_position_lt (value max n : Nat) (wrap : Bool) (hn : 0 < n) :
    spec_position value max n wrap < n := by
  unfold spec_position
  cases wrap
  · simp only [Bool.false_eq_true, if_false]
    have := Nat.min_le_right (spec_bucket value max n) (n - 1)
    omega
  · simp only [if_true]
    exact Nat.mod_lt _ hn

/-- Without overflow the expression that selects the palette position is the
final position of the specification. -/
theorem wrap_or_clamp_eq (b n : Nat) (wrap : Bool) (hn : 0 < n) (hlen : n < 2 ^ 31) :
    wrap_or_clamp b n wrap
      = some (((if wrap then b % n else min b (n - 1)) : Nat) : Int) := by
  cases wrap
  · have hw : wrap32 ((n : Int) - 1) = ((n - 1 : Nat) : Int) := by
      rw [Nat.cast_sub hn]
      apply wrap32_of_range <;> norm_num <;> omega
    simp only [wrap_or_clamp, Bool.false_eq_true, if_false, hw]
    rw [← Nat.cast_min]
  · have h1 : ¬ ((n : Int) = 0) := by omega
    have h2 : ¬ (((b : Int) = -(2 ^ 31)) ∧ ((n : Int) = -1)) := by omega
    simp only [wrap_or_clamp, if_true, int_mod, h1, h2, if_false]
    rw [← Int.ofNat_tmod]

/-- Characterisation of `to_color_pair` on the inputs where no `int` operation
overflows: the palette position is the one of the specification, and the entry
at that position is returned. -/
theorem to_color_pair_spec (idxBits value max : Nat) (colors : List ColorDefinition)
    (wrap : Bool) (hne : colors ≠ []) (hbits : idxBits ≤ 32)
    (hsize : 2 * colors.length < 2 ^ idxBits) (hmax : max < 2 ^ 31)
    (hprod : value * colors.length < 2 ^ 31) :
    palette_position idxBits value max colors wrap
        = some ((spec_position value max colors.length wrap : Nat) : Int)
      ∧ to_color_pair idxBits value max colors wrap
        = colors.get? (spec_position value max colors.length wrap)
      ∧ spec_position value max colors.length wrap < colors.length := by
  have hn : 0 < colors.length := List.length_pos.mpr hne
  have hpow : (2 : Nat) ^ idxBits ≤ 2 ^ 32 := Nat.pow_le_pow_right (by norm_num) hbits
  have hlen : colors.length < 2 ^ 31 := by omega
  have hcs : wrapSigned idxBits (colors.length : Int) = (colors.length : Int) := by
    apply wrapSigned_of_nonneg (by omega)
    exact_mod_cast hsize
  have hcs0 : ¬ ((colors.length : Int) = 0) := by omega
  have hlt := spec_position_lt value max colors.length wrap hn
  have hwc := wrap_or_clamp_eq (spec_bucket value max colors.length) colors.length wrap hn hlen
  have hpos : (if wrap then spec_bucket value max colors.length % colors.length
      else min (spec_bucket value max colors.length) (colors.length - 1))
      = spec_position value max colors.length wrap := rfl
  rw [hpos] at hwc
  refine ⟨?_, ?_, hlt⟩
  · simp only [palette_position, hcs, bucket_index_eq value max colors.length hmax hprod,
      Option.some_bind, hcs0, if_false, hwc]
  · simp only [to_color_pair, hcs, bucket_index_eq value max colors.length hmax hprod,
      Option.some_bind, hcs0, if_false, hwc]
    have hsz : to_size_t ((spec_position value max colors.length wrap : Nat) : Int)
        = ((spec_position value max colors.length wrap : Nat) : Int) := by
      apply to_size_t_of_nonneg (by omega)
      norm_num; omega
    simp only [vector_at, hsz, Int.toNat_ofNat]

theorem wrapSigned_zero (bits : Nat) : wrapSigned bits 0 = 0 := by
  have hm : (0 : Int) < 2 ^ bits := by positivity
  simp only [wrapSigned, Int.zero_emod, mul_zero, hm, if_true]

theorem wrap32_succ_ne_zero {max : Int} (h0 : -(2 ^ 31) ≤ max) (h : max < 2 ^ 31)
    (hne : max ≠ -1) : wrap32 (max + 1) ≠ 0 := by
  simp only [wrap32, wrapSigned]
  norm_num at h0 h ⊢
  split_ifs <;> omega

/-- For a palette no longer than `max + 1` the bucket of `value = max` is the last one. -/
theorem spec_position_max (max n : Nat) (wrap : Bool) (hn : 0 < n) (hle : n ≤ max + 1) :
    spec_position max max n wrap = n - 1 := by
  have hb : spec_bucket max max n = n - 1 := by
    unfold spec_bucket
    have h1 : max * n = (max + 1) * (n - 1) + (max + 1 - n) := by
      obtain ⟨k, rfl⟩ : ∃ k, n = k + 1 := ⟨n - 1, by omega⟩
      obtain ⟨j, rfl⟩ : ∃ j, max = k + j := ⟨max - k, by omega⟩
      simp only [Nat.add_sub_cancel]
      have : k + j + 1 - (k + 1) = j := by omega
      rw [this]; ring
    rw [h1, Nat.mul_add_div (by omega), Nat.div_eq_of_lt (by omega)]
    rfl
  unfold spec_position
  rw [hb]
  cases wrap
  · simp
  · simp only [if_true]
    exact Nat.mod_eq_of_lt (by omega)

/-- The bucket of `value = 0` is the first one. -/
theorem spec_position_zero (max n : Nat) (wrap : Bool) : spec_position 0 max n wrap = 0 := by
  unfold spec_position spec_bucket
  cases wrap <;> simp

/-- Adding a multiple of `max + 1` to the value moves the bucket by a multiple of
the palette size. -/
theorem spec_position_mod (value max n : Nat) :
    spec_position (value % (max + 1)) max n true = spec_position value max n true := by
  unfold spec_position spec_bucket
  simp only [if_true]
  conv_rhs => rw [← Nat.div_add_mod value (max + 1)]
  rw [Nat.add_mul, Nat.mul_assoc, Nat.mul_add_div (by omega),
    Nat.mul_comm (value / (max + 1)) n, Nat.mul_add_mod]

theorem spec_position_mono (v1 v2 max n : Nat) (h : v1 ≤ v2) :
    spec_position v1 max n false ≤ spec_position v2 max n false := by
  unfold spec_position spec_bucket
  simp only [Bool.false_eq_true, if_false]
  have h1 : v1 * n / (max + 1) ≤ v2 * n / (max + 1) :=
    Nat.div_le_div_right (Nat.mul_le_mul_right n h)
  omega

/-! ## `write`: the rectangle -/

theorem wrap32_of_nat {n : Nat} (h : n < 2 ^ 31) : wrap32 (n : Int) = (n : Int) := by
  apply wrap32_of_range <;> norm_num <;> omega

theorem to_uint32_of_nat {n : Nat} (h : n < 2 ^ 32) : to_uint32 (n : Int) = (n : Int) := by
  simp only [to_uint32]
  exact Int.emod_eq_of_lt (by omega) (by exact_mod_cast h)

/-- A scale factor that fits an `int` is the truncated quotient of the surface
dimension by the terminal dimension. -/
theorem scale_factor_eq (screen terminal : Nat) (hs : screen < 2 ^ 32) (h1 : 1 ≤ terminal)
    (ht : terminal < 2 ^ 31) (hq : screen / terminal < 2 ^ 31) :
    scale_factor screen terminal = some ((screen / terminal : Nat) : Int) := by
  have hts : to_uint32 (terminal : Int) = (terminal : Int) := to_uint32_of_nat (by omega)
  have hss : to_uint32 (screen : Int) = (screen : Int) := to_uint32_of_nat hs
  have h0 : ¬ ((terminal : Int) = 0) := by omega
  have hw : wrap32 (((screen / terminal : Nat) : Int)) = ((screen / terminal : Nat) : Int) :=
    wrap32_of_nat hq
  simp only [scale_factor, hts, hss, h0, if_false, ← Int.natCast_div, hw]

theorem double_to_int_of_nat {n : Nat} (h : n < 2 ^ 31) :
    double_to_int (n : Int) = some (n : Int) := by
  have h1 : -(2 ^ 31) ≤ (n : Int) ∧ (n : Int) < 2 ^ 31 := by
    constructor
    · have : (0 : Int) ≤ (n : Int) := by omega
      linarith
    · exact_mod_cast h
  unfold double_to_int
  rw [if_pos h1]

theorem bind_of_eq_some {α β : Type} {o : Option α} {a : α} (f : α → Option β)
    (h : o = some a) : o.bind f = f a := by
  subst h; rfl

/-- The rectangle of `write` when the scale factors and the two coordinates fit
an `int`. -/
theorem write_rect_eq (W H gw gh row column n : Nat)
    (hW : W < 2 ^ 32) (hH : H < 2 ^ 32) (hgw1 : 1 ≤ gw) (hgh1 : 1 ≤ gh)
    (hgw : gw < 2 ^ 31) (hgh : gh < 2 ^ 31)
    (hhs : W / gw < 2 ^ 31) (hvs : H / gh < 2 ^ 31)
    (hx : W / gw * column < 2 ^ 31) (hy : H / gh * row < 2 ^ 31) :
    write_rect W H gw gh row column n
      = some ⟨((W / gw * column : Nat) : Int), ((H / gh * row : Nat) : Int),
          wrap32 (((W / gw : Nat) : Int) * wrap32 (n : Int)),
          wrap32 (((H / gh : Nat) : Int) + 1)⟩ := by
  have hdx : double_to_int (((W / gw : Nat) : Int) * (column : Int))
      = some ((W / gw * column : Nat) : Int) := by
    rw [← Nat.cast_mul]; exact double_to_int_of_nat hx
  have hdy : double_to_int (((H / gh : Nat) : Int) * (row : Int))
      = some ((H / gh * row : Nat) : Int) := by
    rw [← Nat.cast_mul]; exact double_to_int_of_nat hy
  unfold write_rect
  dsimp only
  rw [bind_of_eq_some _ (scale_factor_eq H gh hH hgh1 hgh hvs),
    bind_of_eq_some _ (scale_factor_eq W gw hW hgw1 hgw hhs),
    bind_of_eq_some _ hdx, bind_of_eq_some _ hdy]

/-- For a palette whose size is not read as `0`, `to_color_pair` is the vector
read at the position given by `palette_position`. -/
theorem to_color_pair_eq_read (idxBits : Nat) (number max : Int)
    (colors : List ColorDefinition) (wrap : Bool)
    (hsize : wrapSigned idxBits colors.length ≠ 0) :
    to_color_pair idxBits number max colors wrap
      = (palette_position idxBits number max colors wrap).bind
          fun pos => vector_at colors (to_size_t pos) := by
  unfold to_color_pair palette_position
  dsimp only
  cases bucket_index number max (wrapSigned idxBits colors.length) with
  | none => rfl
  | some index =>
    rw [bind_of_eq_some _ rfl, bind_of_eq_some _ rfl, if_neg hsize, if_neg hsize]

/-! ## Palettes whose size is not a non-negative 16-bit `ColorIndex` -/

theorem palette65536_length : palette65536.length = 65536 := List.length_replicate _ _

theorem palette40000_length : palette40000.length = 40000 := List.length_replicate _ _

theorem palette65536_size : wrapSigned 16 (palette65536.length : Int) = 0 := by
  rw [palette65536_length]; decide

theorem palette40000_size : wrapSigned 16 (palette40000.length : Int) = -25536 := by
  rw [palette40000_length]; decide

theorem sentinel_not_mem_palette65536 : (⟨0, 0, 0, 0⟩ : ColorDefinition) ∉ palette65536 := by
  unfold palette65536
  rw [List.mem_replicate]
  decide

/-- With 65536 entries the size is read as `0`: whenever the bucket division has
a result the sentinel is returned and no palette position is computed. -/
theorem palette65536_sentinel (number max : Int) (wrap : Bool) (index : Int)
    (h : bucket_index number max 0 = some index) :
    to_color_pair 16 number max palette65536 wrap = some ⟨0, 0, 0, 0⟩
      ∧ palette_position 16 number max palette65536 wrap = none := by
  unfold to_color_pair palette_position
  dsimp only
  rw [palette65536_size, bind_of_eq_some _ h, bind_of_eq_some _ h, if_pos rfl, if_pos rfl]
  exact ⟨rfl, rfl⟩

/-- A negative position, cast to `size_t`, is outside every vector shorter than
`2^63` entries. -/
theorem vector_at_negative (colors : List ColorDefinition) (pos : Int)
    (hneg : pos < 0) (hlo : -(2 ^ 63) ≤ pos) (hlen : colors.length < 2 ^ 63) :
    vector_at colors (to_size_t pos) = none := by
  unfold vector_at to_size_t
  apply List.get?_eq_none.mpr
  omega

/-- With 40000 entries the size is read as `-25536`: the position is the one
computed from that size, and when it is negative the read has no result. -/
theorem palette40000_read (number max : Int) (wrap : Bool) (index pos : Int)
    (hi : bucket_index number max (-25536) = some index)
    (hp : wrap_or_clamp index (-25536) wrap = some pos)
    (hneg : pos < 0) (hlo : -(2 ^ 63) ≤ pos) :
    palette_position 16 number max palette40000 wrap = some pos
      ∧ to_color_pair 16 number max palette40000 wrap = none := by
  have hpos : palette_position 16 number max palette40000 wrap = some pos := by
    unfold palette_position
    dsimp only
    rw [palette40000_size, bind_of_eq_some _ hi, if_neg (by decide), hp]
  refine ⟨hpos, ?_⟩
  rw [to_color_pair_eq_read _ _ _ _ _ (by rw [palette40000_size]; decide), hpos,
    bind_of_eq_some _ rfl]
  exact vector_at_negative _ _ hneg hlo (by rw [palette40000_length]; decide)

/-! ## `write` and `clear`: the colour -/

theorem ldiff_low (x y : Nat) (hx : x < 2 ^ 24) (hxy : x ||| y < 2 ^ 24) :
    Nat.ldiff (2 ^ 24 - 1 - x) y = 2 ^ 24 - 1 - (x ||| y) := by
  have e1 : 2 ^ 24 - 1 - x = 2 ^ 24 - (x + 1) := by omega
  have e2 : 2 ^ 24 - 1 - (x ||| y) = 2 ^ 24 - ((x ||| y) + 1) := by omega
  apply Nat.eq_of_testBit_eq
  intro i
  rw [Nat.testBit_ldiff, e1, e2, Nat.testBit_two_pow_sub_succ hx,
    Nat.testBit_two_pow_sub_succ hxy, Nat.testBit_or]
  cases decide (i < 24) <;> cases x.testBit i <;> cases y.testBit i <;> rfl

/-- Bitwise or of an `int` whose bits 24 and above are all set with a value below
`2^24`: only the low 24 bits change. -/
theorem lor_high_ones (x y : Nat) (hx : x < 2 ^ 24) (hy : y < 2 ^ 24) :
    Int.lor (-(2 ^ 24) + (x : Int)) (y : Int) = -(2 ^ 24) + ((x ||| y : Nat) : Int) := by
  have hxy : x ||| y < 2 ^ 24 := Nat.or_lt_two_pow hx hy
  have e1 : -(2 ^ 24) + (x : Int) = Int.negSucc (2 ^ 24 - 1 - x) := by
    rw [Int.negSucc_eq]; omega
  have e2 : Int.lor (Int.negSucc (2 ^ 24 - 1 - x)) (y : Int)
      = Int.negSucc (Nat.ldiff (2 ^ 24 - 1 - x) y) := rfl
  rw [e1, e2, ldiff_low x y hx hxy, Int.negSucc_eq]
  omega

theorem to_uint8_eq (x : Int) :
    to_uint8 x = (((x % 256).toNat : Nat) : Int) ∧ (x % 256).toNat < 256 := by
  have h0 : 0 ≤ x % 256 := Int.emod_nonneg _ (by norm_num)
  have h1 : x % 256 < 256 := Int.emod_lt_of_pos _ (by norm_num)
  refine ⟨?_, by omega⟩
  rw [Int.toNat_of_nonneg h0]
  simp only [to_uint8]
  norm_num

theorem int_shl_of_nat (r k : Nat) (h : r * 2 ^ k < 2 ^ 31) :
    int_shl (r : Int) k = ((r <<< k : Nat) : Int) := by
  unfold int_shl
  rw [Nat.shiftLeft_eq]
  have : (r : Int) * 2 ^ k = ((r * 2 ^ k : Nat) : Int) := by push_cast; rfl
  rw [this]
  exact wrap32_of_nat h

theorem int_shl_alpha : int_shl (to_uint8 0xff) 24 = -(2 ^ 24) + ((0 : Nat) : Int) := by
  decide

/-- The colour of `write`: alpha byte `0xFF` above the three channel bytes. -/
theorem color_argb_eq (c : ColorDefinition) :
    color_argb c
      = ((2 ^ 32 - 2 ^ 24 + (((c.red % 256).toNat <<< 16 ||| (c.green % 256).toNat <<< 8)
          ||| (c.blue % 256).toNat) : Nat) : Int)
      ∧ (((c.red % 256).toNat <<< 16 ||| (c.green % 256).toNat <<< 8)
          ||| (c.blue % 256).toNat) < 2 ^ 24 := by
  obtain ⟨er, hr⟩ := to_uint8_eq c.red
  obtain ⟨eg, hg⟩ := to_uint8_eq c.green
  obtain ⟨eb, hb⟩ := to_uint8_eq c.blue
  generalize (c.red % 256).toNat = r at er hr ⊢
  generalize (c.green % 256).toNat = g at eg hg ⊢
  generalize (c.blue % 256).toNat = b at eb hb ⊢
  have hR : r <<< 16 < 2 ^ 24 := by rw [Nat.shiftLeft_eq]; omega
  have hG : g <<< 8 < 2 ^ 24 := by rw [Nat.shiftLeft_eq]; omega
  have hB : b < 2 ^ 24 := by omega
  have hRG : r <<< 16 ||| g <<< 8 < 2 ^ 24 := Nat.or_lt_two_pow hR hG
  have hRGB : (r <<< 16 ||| g <<< 8) ||| b < 2 ^ 24 := Nat.or_lt_two_pow hRG hB
  refine ⟨?_, hRGB⟩
  unfold color_argb
  dsimp only
  rw [int_shl_alpha, er, eg, eb, int_shl_of_nat r 16 (by omega), int_shl_of_nat g 8 (by omega),
    lor_high_ones 0 _ (by norm_num) hR, Nat.zero_or, lor_high_ones _ _ hR hG,
    lor_high_ones _ _ hRG hB]
  generalize (r <<< 16 ||| g <<< 8) ||| b = v at hRGB ⊢
  simp only [to_uint32]
  omega

/-! ## `to_color_pair`: the claims -/

/-- C1 (as stated, refuted): at a 16-bit `ColorIndex`, a palette of 65536 entries
has its size read as `0`, so the sentinel, which is no palette entry, is
returned; a palette of 40000 entries has its size read as `-25536`, so the
position is negative and the read has no result. -/
theorem to_color_pair_oversized_palette :
    to_color_pair 16 1 99 palette65536 true = some ⟨0, 0, 0, 0⟩
      ∧ (⟨0, 0, 0, 0⟩ : ColorDefinition) ∉ palette65536
      ∧ palette_position 16 1 99 palette40000 true = some (-255)
      ∧ to_color_pair 16 1 99 palette40000 true = none
      ∧ palette_position 16 1 99 palette40000 false = some (-25537)
      ∧ to_color_pair 16 1 99 palette40000 false = none :=
  have h0 := palette65536_sentinel 1 99 true 0 (by decide)
  have h1 := palette40000_read 1 99 true (-255) (-255) (by decide) (by decide) (by decide)
    (by decide)
  have h2 := palette40000_read 1 99 false (-255) (-25537) (by decide) (by decide) (by decide)
    (by decide)
  ⟨h0.1, sentinel_not_mem_palette65536, h1.1, h1.2, h2.1, h2.2⟩

/-- C1 (amended): for every non-empty palette whose size is a non-negative value
of `vis::ColorIndex` (a signed integer type `idxBits ≤ 32` bits wide, so
`2 * paletteSize < 2^idxBits`), every `max ≥ 0` and every `value ≥ 0` with
`value * paletteSize` not overflowing, `to_color_pair` returns the palette entry
at position `floor(value * paletteSize / (max + 1)) mod paletteSize` when `wrap`
is true and at position `min(floor(value * paletteSize / (max + 1)),
paletteSize - 1)` when `wrap` is false. -/
theorem to_color_pair_selects_bucket (idxBits value max : Nat)
    (colors : List ColorDefinition) (wrap : Bool) (hne : colors ≠ [])
    (hbits : idxBits ≤ 32) (hsize : 2 * colors.length < 2 ^ idxBits)
    (hmax : max < 2 ^ 31) (hprod : value * colors.length < 2 ^ 31) :
    (if wrap then value * colors.length / (max + 1) % colors.length
        else min (value * colors.length / (max + 1)) (colors.length - 1)) < colors.length
      ∧ to_color_pair idxBits value max colors wrap
        = colors.get? (if wrap then value * colors.length / (max + 1) % colors.length
            else min (value * colors.length / (max + 1)) (colors.length - 1)) :=
  have h := to_color_pair_spec idxBits value max colors wrap hne hbits hsize hmax hprod
  ⟨h.2.2, h.2.1⟩

/-- Witness of C1 (amended): palette of four, `max = 99`, `value = 250`, wrapping: the
entry at position `10 mod 4 = 2` is returned. -/
theorem to_color_pair_selects_bucket_witness :
    2 < palette4.length
      ∧ to_color_pair 16 ((250 : Nat) : Int) ((99 : Nat) : Int) palette4 true
        = palette4.get? 2 :=
  to_color_pair_selects_bucket 16 250 99 palette4 true (by decide) (by decide) (by decide)
    (by decide) (by decide)

/-- C2 (as stated, refuted): with an empty palette and `max = -1` the division by
`max + 1 = 0`, which precedes the emptiness check, has no result, so no colour
is returned. -/
theorem empty_palette_max_neg_one_faults :
    to_color_pair 16 0 (-1) [] false = none
      ∧ to_color_pair 16 7 (-1) [] true = none
      ∧ bucket_index 0 (-1) 0 = none := by
  decide

/-- C2 (amended): for every value, every `max` other than `-1` and both values of
`wrap`, `to_color_pair` called with an empty palette returns the sentinel
`ColorDefinition{0, 0, 0, 0}`; for `max = -1` the division that precedes the
emptiness check has no result. -/
theorem to_color_pair_empty (idxBits : Nat) (number max : Int) (wrap : Bool)
    (hlo : -(2 ^ 31) ≤ max) (hhi : max < 2 ^ 31) :
    (max ≠ -1 → to_color_pair idxBits number max [] wrap = some ⟨0, 0, 0, 0⟩)
      ∧ (max = -1 → to_color_pair idxBits number max [] wrap = none) := by
  have hw0 : wrap32 0 = 0 := by decide
  constructor
  · intro hne
    have hb : wrap32 (max + 1) ≠ 0 := wrap32_succ_ne_zero hlo hhi hne
    have h2 : ¬ ((0 : Int) = -(2 ^ 31) ∧ wrap32 (max + 1) = -1) := by norm_num
    simp only [to_color_pair, List.length_nil, Nat.cast_zero, wrapSigned_zero, bucket_index,
      mul_zero, hw0, int_div, hb, h2, if_false, Int.zero_tdiv, Option.some_bind, if_true]
  · intro heq
    subst heq
    have hb : wrap32 (-1 + 1) = 0 := by decide
    simp only [to_color_pair, List.length_nil, Nat.cast_zero, wrapSigned_zero, bucket_index,
      mul_zero, hw0, int_div, hb, if_true, Option.none_bind]

/-- Witness of C2 (amended): `max = 99` gives the sentinel. -/
theorem to_color_pair_empty_witness :
    to_color_pair 16 250 99 [] true = some ⟨0, 0, 0, 0⟩ :=
  (to_color_pair_empty 16 250 99 true (by decide) (by decide)).1 (by decide)

/-- C3 (the code at the failing inputs): on a palette of four with `max = 99` the
negative values `-50` and `-25` give the negative positions `-2` and `-1` in
both wrap and non-wrap mode (the division and the remainder truncate toward
zero and only an upper clamp exists); cast to `size_t` they lie outside the
palette and the read has no result, where the claim promises a position in
`[0, paletteSize)` and a palette entry. -/
theorem palette_position_out_of_bounds :
    palette_position 16 (-50) 99 palette4 true = some (-2)
      ∧ to_color_pair 16 (-50) 99 palette4 true = none
      ∧ palette_position 16 (-50) 99 palette4 false = some (-2)
      ∧ to_color_pair 16 (-50) 99 palette4 false = none
      ∧ palette_position 16 (-25) 99 palette4 true = some (-1)
      ∧ to_color_pair 16 (-25) 99 palette4 true = none
      ∧ palette_position 16 (-25) 99 palette4 false = some (-1)
      ∧ to_color_pair 16 (-25) 99 palette4 false = none := by
  decide

/-- C4 (as stated, refuted): with `max = 2^30` and a palette of four,
`value1 = 2^29 - 1 ≤ value2 = 2^30 ≤ max`, yet `value2 * 4` overflows the `int`
product to `0`: `value1` selects position 1 and `value2` position 0.  And at a
16-bit `ColorIndex` a palette of 65536 entries has no position selected at all,
while a palette of 40000 entries has the position `-25537` outside the palette
selected. -/
theorem palette_position_not_monotone :
    ((2 : Int) ^ 29 - 1 ≤ 2 ^ 30 ∧ (2 : Int) ^ 30 ≤ 2 ^ 30)
      ∧ palette_position 16 (2 ^ 29 - 1) (2 ^ 30) palette4 false = some 1
      ∧ palette_position 16 (2 ^ 30) (2 ^ 30) palette4 false = some 0
      ∧ to_color_pair 16 (2 ^ 29 - 1) (2 ^ 30) palette4 false = palette4.get? 1
      ∧ to_color_pair 16 (2 ^ 30) (2 ^ 30) palette4 false = palette4.get? 0
      ∧ palette_position 16 1 99 palette65536 false = none
      ∧ palette_position 16 0 99 palette40000 false = some (-25537)
      ∧ to_color_pair 16 0 99 palette40000 false = none :=
  have h0 := palette65536_sentinel 1 99 false 0 (by decide)
  have h1 := palette40000_read 0 99 false 0 (-25537) (by decide) (by decide) (by decide)
    (by decide)
  ⟨by decide, by decide, by decide, by decide, by decide, h0.2, h1.1, h1.2⟩

/-- C4 (amended): for every non-empty palette whose size is a non-negative value
of `vis::ColorIndex` (a signed integer type `idxBits ≤ 32` bits wide, so
`2 * paletteSize < 2^idxBits`), every `max ≥ 0` and all `value1 ≤ value2` in
`[0, max]` with `value2 * paletteSize` not overflowing, the palette position
selected by `to_color_pair` for `value1` in non-wrap mode is less than or equal
to the one selected for `value2`.  (The bound `value2 ≤ max` plays no part in
the proof: the clamp covers larger values.) -/
theorem palette_position_monotone (idxBits value1 value2 max : Nat)
    (colors : List ColorDefinition) (hne : colors ≠ [])
    (hbits : idxBits ≤ 32) (hsize : 2 * colors.length < 2 ^ idxBits)
    (hmax : max < 2 ^ 31) (h12 : value1 ≤ value2)
    (hprod : value2 * colors.length < 2 ^ 31) :
    ∃ pos1 pos2 : Nat,
      palette_position idxBits value1 max colors false = some (pos1 : Int)
      ∧ palette_position idxBits value2 max colors false = some (pos2 : Int)
      ∧ to_color_pair idxBits value1 max colors false = colors.get? pos1
      ∧ to_color_pair idxBits value2 max colors false = colors.get? pos2
      ∧ pos1 ≤ pos2 ∧ pos2 < colors.length := by
  have hprod1 : value1 * colors.length < 2 ^ 31 :=
    lt_of_le_of_lt (Nat.mul_le_mul_right _ h12) hprod
  obtain ⟨hp1, hc1, _⟩ :=
    to_color_pair_spec idxBits value1 max colors false hne hbits hsize hmax hprod1
  obtain ⟨hp2, hc2, hlt2⟩ :=
    to_color_pair_spec idxBits value2 max colors false hne hbits hsize hmax hprod
  exact ⟨_, _, hp1, hp2, hc1, hc2, spec_position_mono value1 value2 max colors.length h12, hlt2⟩

/-- Witness of C4 (amended): palette of four, `max = 99`, values 30 and 80. -/
theorem palette_position_monotone_witness :
    ∃ pos1 pos2 : Nat,
      palette_position 16 ((30 : Nat) : Int) ((99 : Nat) : Int) palette4 false
        = some (pos1 : Int)
      ∧ palette_position 16 ((80 : Nat) : Int) ((99 : Nat) : Int) palette4 false
        = some (pos2 : Int)
      ∧ to_color_pair 16 ((30 : Nat) : Int) ((99 : Nat) : Int) palette4 false
        = palette4.get? pos1
      ∧ to_color_pair 16 ((80 : Nat) : Int) ((99 : Nat) : Int) palette4 false
        = palette4.get? pos2
      ∧ pos1 ≤ pos2 ∧ pos2 < palette4.length :=
  palette_position_monotone 16 30 80 99 palette4 (by decide) (by decide) (by decide)
    (by decide) (by decide) (by decide)

/-- C5 (as stated, refuted): palette of three, `max = 0`, `value = 2^31 - 1`:
the `int` product `value * 3` overflows and the third entry is returned, while
`value mod (max + 1) = 0` gives the first entry.  And at a 16-bit `ColorIndex`
no palette entry is returned for `value = 250`, `max = 99` on a palette of
65536 entries (the sentinel) or of 40000 entries (a read at position
`-12768`). -/
theorem to_color_pair_wrap_not_cyclic :
    to_color_pair 16 (2 ^ 31 - 1) 0 palette3 true = palette3.get? 2
      ∧ to_color_pair 16 ((2 ^ 31 - 1) % (0 + 1)) 0 palette3 true = palette3.get? 0
      ∧ to_color_pair 16 (2 ^ 31 - 1) 0 palette3 true
        ≠ to_color_pair 16 ((2 ^ 31 - 1) % (0 + 1)) 0 palette3 true
      ∧ to_color_pair 16 250 99 palette65536 true = some ⟨0, 0, 0, 0⟩
      ∧ (⟨0, 0, 0, 0⟩ : ColorDefinition) ∉ palette65536
      ∧ palette_position 16 250 99 palette40000 true = some (-12768)
      ∧ to_color_pair 16 250 99 palette40000 true = none :=
  have h0 := palette65536_sentinel 250 99 true 0 (by decide)
  have h1 := palette40000_read 250 99 true (-63840) (-12768) (by decide) (by decide)
    (by decide) (by decide)
  ⟨by decide, by decide, by decide, h0.1, sentinel_not_mem_palette65536, h1.1, h1.2⟩

/-- C5 (amended): wrap mode is cyclic with period `max + 1` as long as the product
does not overflow: for every non-empty palette whose size is a non-negative
value of `vis::ColorIndex` (a signed integer type `idxBits ≤ 32` bits wide, so
`2 * paletteSize < 2^idxBits`), every `max ≥ 0` and every `value ≥ 0` with
`value * paletteSize` not overflowing,
`to_color_pair(value, max, palette, wrap = true)` returns the same palette entry
as `to_color_pair(value mod (max + 1), max, palette, wrap = true)`. -/
theorem to_color_pair_wrap_cyclic (idxBits value max : Nat)
    (colors : List ColorDefinition) (hne : colors ≠ [])
    (hbits : idxBits ≤ 32) (hsize : 2 * colors.length < 2 ^ idxBits)
    (hmax : max < 2 ^ 31) (hprod : value * colors.length < 2 ^ 31) :
    to_color_pair idxBits value max colors true
        = to_color_pair idxBits ((value % (max + 1) : Nat) : Int) max colors true
      ∧ ∃ entry, entry ∈ colors ∧ to_color_pair idxBits value max colors true = some entry := by
  have hprod' : value % (max + 1) * colors.length < 2 ^ 31 :=
    lt_of_le_of_lt (Nat.mul_le_mul_right _ (Nat.mod_le _ _)) hprod
  obtain ⟨_, hc, hlt⟩ :=
    to_color_pair_spec idxBits value max colors true hne hbits hsize hmax hprod
  obtain ⟨_, hc', _⟩ :=
    to_color_pair_spec idxBits (value % (max + 1)) max colors true hne hbits hsize hmax hprod'
  refine ⟨?_, colors.get ⟨_, hlt⟩, List.get_mem _ _ _, ?_⟩
  · rw [hc, hc', spec_position_mod]
  · rw [hc]
    exact List.get?_eq_get hlt

/-- Witness of C5 (amended): palette of four, `max = 99`: `value = 250` gives the
same entry as `value = 250 mod 100 = 50`. -/
theorem to_color_pair_wrap_cyclic_witness :
    to_color_pair 16 ((250 : Nat) : Int) ((99 : Nat) : Int) palette4 true
        = to_color_pair 16 ((250 % (99 + 1) : Nat) : Int) ((99 : Nat) : Int) palette4 true
      ∧ ∃ entry, entry ∈ palette4
        ∧ to_color_pair 16 ((250 : Nat) : Int) ((99 : Nat) : Int) palette4 true = some entry :=
  to_color_pair_wrap_cyclic 16 250 99 palette4 (by decide) (by decide) (by decide)
    (by decide) (by decide)

/-- C6 (as stated, refuted): on the two-entry palette with `max = 0` the value
`max` falls in the first bucket, so red is returned and not blue, the last
entry; with `max = 2^30` on a palette of four the product `max * 4` overflows
to `0` and the first entry is returned, not the last.  And at a 16-bit
`ColorIndex` the value `0` gives the sentinel, not the first entry, on a
palette of 65536 entries, and no entry at all in non-wrap mode on a palette of
40000 entries. -/
theorem to_color_pair_max_not_last :
    to_color_pair 16 0 0 palette2 true = some red
      ∧ to_color_pair 16 0 0 palette2 false = some red
      ∧ palette2.getLast? = some blue ∧ red ≠ blue
      ∧ to_color_pair 16 (2 ^ 30) (2 ^ 30) palette4 false = palette4.head?
      ∧ to_color_pair 16 (2 ^ 30) (2 ^ 30) palette4 false ≠ palette4.getLast?
      ∧ to_color_pair 16 0 99 palette65536 true = some ⟨0, 0, 0, 0⟩
      ∧ (⟨0, 0, 0, 0⟩ : ColorDefinition) ∉ palette65536
      ∧ to_color_pair 16 0 99 palette40000 false = none :=
  have h0 := palette65536_sentinel 0 99 true 0 (by decide)
  have h1 := palette40000_read 0 99 false 0 (-25537) (by decide) (by decide) (by decide)
    (by decide)
  ⟨by decide, by decide, by decide, by decide, by decide, by decide, h0.1,
    sentinel_not_mem_palette65536, h1.2⟩

/-- C6 (amended): for every non-empty palette whose size is a non-negative value
of `vis::ColorIndex` (a signed integer type `idxBits ≤ 32` bits wide, so
`2 * paletteSize < 2^idxBits`) and every `max ≥ 0`,
`to_color_pair(0, max, palette, wrap)` returns the first palette entry; and
`to_color_pair(max, max, palette, wrap)` returns the last palette entry whenever
the palette has at most `max + 1` entries and `max * paletteSize` does not
overflow. -/
theorem to_color_pair_range_ends (idxBits max : Nat)
    (colors : List ColorDefinition) (wrap : Bool) (hne : colors ≠ [])
    (hbits : idxBits ≤ 32) (hsize : 2 * colors.length < 2 ^ idxBits)
    (hmax : max < 2 ^ 31) :
    to_color_pair idxBits 0 max colors wrap = some (colors.head hne)
      ∧ (colors.length ≤ max + 1 → max * colors.length < 2 ^ 31 →
          to_color_pair idxBits max max colors wrap = some (colors.getLast hne)) := by
  have hn : 0 < colors.length := List.length_pos.mpr hne
  constructor
  · obtain ⟨_, hc, _⟩ :=
      to_color_pair_spec idxBits 0 max colors wrap hne hbits hsize hmax (by omega)
    rw [Nat.cast_zero] at hc
    rw [hc, spec_position_zero]
    cases colors with
    | nil => exact absurd rfl hne
    | cons c cs => rfl
  · intro hle hprod
    obtain ⟨_, hc, _⟩ :=
      to_color_pair_spec idxBits max max colors wrap hne hbits hsize hmax hprod
    rw [hc, spec_position_max max colors.length wrap hn hle,
      List.get?_eq_get (by omega), List.getLast_eq_getElem]
    rfl

/-- Witness of C6 (amended): two-entry palette `[red, blue]` with `max = 1`: red
for `value = 0`, blue for `value = 1`. -/
theorem to_color_pair_range_ends_witness :
    to_color_pair 16 0 ((1 : Nat) : Int) palette2 true = some red
      ∧ to_color_pair 16 ((1 : Nat) : Int) ((1 : Nat) : Int) palette2 true = some blue :=
  have h := to_color_pair_range_ends 16 1 palette2 true (by decide) (by decide) (by decide)
    (by decide)
  ⟨h.1, h.2 (by decide) (by decide)⟩

/-- C7 (as stated, refuted): surface 720x620, grid 80x24, row 0, column 0 and a
bar of `n = 238609295` characters: the claimed width `9 * n = 2147483655` does
not fit an `int`, and the rectangle gets the width `-2147483641`. -/
theorem write_rect_width_overflows :
    write_rect 720 620 80 24 0 0 238609295 = some ⟨0, 0, -2147483641, 26⟩
      ∧ (720 / 80 * 238609295 : Int) = 2147483655 := by
  decide

/-- C7 (amended): for every surface size `(W, H)`, every grid size `(gw, gh)` with
`gw ≥ 1` and `gh ≥ 1`, and every non-negative integer row, column and bar width
`n`, as long as the horizontal scale factor, `n` and the four values below fit
a signed 32-bit `int`, the rectangle `write` fills is
`x = floor(W / gw) * column`, `y = floor(H / gh) * row`,
`width = floor(W / gw) * n`, `height = floor(H / gh) + 1`. -/
theorem write_fills_scaled_rect (W H gw gh row column n : Nat) (color : ColorDefinition)
    (hW : W < 2 ^ 32) (hH : H < 2 ^ 32) (hgw1 : 1 ≤ gw) (hgh1 : 1 ≤ gh)
    (hgw : gw < 2 ^ 31) (hgh : gh < 2 ^ 31) (hhs : W / gw < 2 ^ 31) (hn : n < 2 ^ 31)
    (hx : W / gw * column < 2 ^ 31) (hy : H / gh * row < 2 ^ 31)
    (hw : W / gw * n < 2 ^ 31) (hh : H / gh + 1 < 2 ^ 31) :
    write W H gw gh row column color n
      = some ⟨some ⟨((W / gw * column : Nat) : Int), ((H / gh * row : Nat) : Int),
          ((W / gw * n : Nat) : Int), ((H / gh + 1 : Nat) : Int)⟩, color_argb color⟩ := by
  have hr := write_rect_eq W H gw gh row column n hW hH hgw1 hgh1 hgw hgh hhs (by omega) hx hy
  have h1 : wrap32 (((W / gw : Nat) : Int) * wrap32 (n : Int)) = ((W / gw * n : Nat) : Int) := by
    rw [wrap32_of_nat hn, ← Nat.cast_mul]
    exact wrap32_of_nat hw
  have h2 : wrap32 (((H / gh : Nat) : Int) + 1) = ((H / gh + 1 : Nat) : Int) := by
    have : ((H / gh : Nat) : Int) + 1 = ((H / gh + 1 : Nat) : Int) := by push_cast; rfl
    rw [this]
    exact wrap32_of_nat hh
  rw [h1, h2] at hr
  unfold write
  rw [bind_of_eq_some _ hr]

/-- Witness of C7 (amended): surface 720x620, grid 80x24, row 0, column 0, `n = 5`
gives `x = 0`, `y = 0`, `w = 45`, `h = 26`. -/
theorem write_fills_scaled_rect_witness :
    write ((720 : Nat) : Int) ((620 : Nat) : Int) ((80 : Nat) : Int) ((24 : Nat) : Int)
        ((0 : Nat) : Int) ((0 : Nat) : Int) red 5
      = some ⟨some ⟨((0 : Nat) : Int), ((0 : Nat) : Int), ((45 : Nat) : Int),
          ((26 : Nat) : Int)⟩, color_argb red⟩ :=
  write_fills_scaled_rect 720 620 80 24 0 0 5 red (by decide) (by decide) (by decide)
    (by decide) (by decide) (by decide) (by decide) (by decide) (by decide) (by decide)
    (by decide) (by decide)

/-- C8 (as stated, refuted): a surface 10 pixels high on a grid of 24 rows has
vertical scale factor 0 and yet the rectangle is 1 pixel high, not 0; and a
surface `2^31` pixels wide on a grid one column wide has the negative
horizontal scale factor `-2^31`. -/
theorem write_rect_zero_scale_height_one :
    scale_factor 10 24 = some 0
      ∧ write_rect 720 10 80 24 0 0 5 = some ⟨0, 0, 45, 1⟩
      ∧ write_rect 720 10 80 24 3 7 5 = some ⟨63, 0, 45, 1⟩
      ∧ scale_factor (2 ^ 31) 1 = some (-(2 ^ 31)) := by
  decide

/-- C8 (amended): for every surface size and grid size (grid dimensions `≥ 1`)
whose scale factors fit a signed 32-bit `int`, the horizontal and vertical
scale factors computed by `write` are `≥ 0`; when the surface is narrower than
the grid the horizontal scale factor is 0 and the drawn rectangle has width 0;
when the surface is shorter than the grid the vertical scale factor is 0 and
the drawn rectangle has height 1 (the scale factor plus one), not 0. -/
theorem write_rect_scale_nonneg (W H gw gh row column n : Nat)
    (hW : W < 2 ^ 32) (hH : H < 2 ^ 32) (hgw1 : 1 ≤ gw) (hgh1 : 1 ≤ gh)
    (hgw : gw < 2 ^ 31) (hgh : gh < 2 ^ 31) (hhs : W / gw < 2 ^ 31) (hvs : H / gh < 2 ^ 31)
    (hx : W / gw * column < 2 ^ 31) (hy : H / gh * row < 2 ^ 31) :
    ∃ (horizontal vertical : Int) (rect : SDL_Rect),
      scale_factor W gw = some horizontal ∧ scale_factor H gh = some vertical
      ∧ 0 ≤ horizontal ∧ 0 ≤ vertical
      ∧ write_rect W H gw gh row column n = some rect
      ∧ (W < gw → horizontal = 0 ∧ rect.w = 0)
      ∧ (H < gh → vertical = 0 ∧ rect.h = 1) := by
  refine ⟨_, _, _, scale_factor_eq W gw hW hgw1 hgw hhs, scale_factor_eq H gh hH hgh1 hgh hvs,
    Int.natCast_nonneg _, Int.natCast_nonneg _,
    write_rect_eq W H gw gh row column n hW hH hgw1 hgh1 hgw hgh hhs hvs hx hy, ?_, ?_⟩
  · intro hlt
    have h0 : W / gw = 0 := Nat.div_eq_of_lt hlt
    refine ⟨by rw [h0]; rfl, ?_⟩
    dsimp only
    rw [h0, Nat.cast_zero, zero_mul]
    exact wrap32_of_range (by norm_num) (by norm_num)
  · intro hlt
    have h0 : H / gh = 0 := Nat.div_eq_of_lt hlt
    refine ⟨by rw [h0]; rfl, ?_⟩
    dsimp only
    rw [h0, Nat.cast_zero, zero_add]
    exact wrap32_of_range (by norm_num) (by norm_num)

/-- Witness of C8 (amended): surface 10x10 on a grid 80x24: both scale factors are
0, the rectangle has width 0 and height 1. -/
theorem write_rect_scale_nonneg_witness :
    ∃ (horizontal vertical : Int) (rect : SDL_Rect),
      scale_factor ((10 : Nat) : Int) ((80 : Nat) : Int) = some horizontal
      ∧ scale_factor ((10 : Nat) : Int) ((24 : Nat) : Int) = some vertical
      ∧ 0 ≤ horizontal ∧ 0 ≤ vertical
      ∧ write_rect ((10 : Nat) : Int) ((10 : Nat) : Int) ((80 : Nat) : Int) ((24 : Nat) : Int)
          ((3 : Nat) : Int) ((7 : Nat) : Int) 5 = some rect
      ∧ (10 < 80 → horizontal = 0 ∧ rect.w = 0)
      ∧ (10 < 24 → vertical = 0 ∧ rect.h = 1) :=
  write_rect_scale_nonneg 10 10 80 24 3 7 5 (by decide) (by decide) (by decide) (by decide)
    (by decide) (by decide) (by decide) (by decide) (by decide) (by decide)

/-- The packing of the specification with alpha `0xFF` and 8-bit channels. -/
theorem spec_argb32_alpha_ff (r g b : Nat) (hr : r < 256) (hg : g < 256) (hb : b < 256) :
    spec_argb32 0xFF r g b = 2 ^ 32 - 2 ^ 24 + ((r <<< 16 ||| g <<< 8) ||| b) := by
  have hR : r <<< 16 < 2 ^ 24 := by rw [Nat.shiftLeft_eq]; omega
  have hG : g <<< 8 < 2 ^ 24 := by rw [Nat.shiftLeft_eq]; omega
  have hRGB : (r <<< 16 ||| g <<< 8) ||| b < 2 ^ 24 :=
    Nat.or_lt_two_pow (Nat.or_lt_two_pow hR hG) (by omega)
  have hA : (0xFF : Nat) <<< 24 = 2 ^ 24 * 255 := by decide
  unfold spec_argb32
  rw [Nat.lor_assoc, Nat.lor_assoc, ← Nat.lor_assoc (r <<< 16), hA,
    ← Nat.mul_add_lt_is_or hRGB]
  omega

/-- C9 (the code at the failing input): `clear` passes the literal `0x000000`, so
the value written to every pixel is `0`, whose alpha byte is `0x00`; the ARGB32
packing of red = 0, green = 0, blue = 0 with alpha `0xFF`, which is also the
value `write` uses for a colour whose channels are all zero, is `0xFF000000`. -/
theorem clear_color_alpha_not_ff :
    clear.color = 0
      ∧ spec_argb32 0xFF 0 0 0 = 0xFF000000
      ∧ clear.color ≠ ((spec_argb32 0xFF 0 0 0 : Nat) : Int)
      ∧ color_argb ⟨0, 0, 0, 0⟩ = 0xFF000000
      ∧ clear.color ≠ color_argb ⟨0, 0, 0, 0⟩ := by
  have hc : color_argb ⟨0, 0, 0, 0⟩ = 0xFF000000 := by
    rw [(color_argb_eq ⟨0, 0, 0, 0⟩).1]
    decide
  refine ⟨rfl, by decide, by decide, hc, ?_⟩
  rw [hc]
  decide

/-- C10: for every `ColorDefinition` whose red, green and blue channels are in
`0..255`, the 32-bit fill value `write` computes equals
`(0xFF << 24) | (red << 16) | (green << 8) | blue` taken modulo `2^32`; and for
every `ColorDefinition` whatsoever (negative channels included) the top byte of
the fill value is `0xFF`. -/
theorem color_argb_packing (color_index : Int) (red green blue : Nat)
    (hr : red < 256) (hg : green < 256) (hb : blue < 256) :
    color_argb ⟨color_index, red, green, blue⟩
        = ((spec_argb32 0xFF red green blue % 2 ^ 32 : Nat) : Int)
      ∧ ∀ color : ColorDefinition, color_argb color / 2 ^ 24 = 0xFF := by
  constructor
  · have hR : red <<< 16 < 2 ^ 24 := by rw [Nat.shiftLeft_eq]; omega
    have hG : green <<< 8 < 2 ^ 24 := by rw [Nat.shiftLeft_eq]; omega
    have hRGB : (red <<< 16 ||| green <<< 8) ||| blue < 2 ^ 24 :=
      Nat.or_lt_two_pow (Nat.or_lt_two_pow hR hG) (by omega)
    have er : ((red : Int) % 256).toNat = red := by omega
    have eg : ((green : Int) % 256).toNat = green := by omega
    have eb : ((blue : Int) % 256).toNat = blue := by omega
    rw [(color_argb_eq _).1, spec_argb32_alpha_ff red green blue hr hg hb]
    dsimp only
    rw [er, eg, eb, Nat.mod_eq_of_lt (by omega)]
  · intro color
    obtain ⟨h, hlt⟩ := color_argb_eq color
    rw [h]
    generalize (((color.red % 256).toNat <<< 16 ||| (color.green % 256).toNat <<< 8)
      ||| (color.blue % 256).toNat) = v at hlt ⊢
    omega

/-- Witness of C10: red 255, green 1, blue 2; and the top byte for the colour
whose three channels are `-1`. -/
theorem color_argb_packing_witness :
    color_argb ⟨0, ((255 : Nat) : Int), ((1 : Nat) : Int), ((2 : Nat) : Int)⟩
        = ((spec_argb32 0xFF 255 1 2 % 2 ^ 32 : Nat) : Int)
      ∧ color_argb ⟨0, -1, -1, -1⟩ / 2 ^ 24 = 0xFF :=
  have h := color_argb_packing 0 255 1 2 (by decide) (by decide) (by decide)
  ⟨h.1, h.2 ⟨0, -1, -1, -1⟩⟩

end vis
